import Mathlib

/-!
Verification of the conversion orchestration pipeline in
bdd100k/label/to_rle.py against its specification.

The embedding models the Python module shallowly: in-place mutation of
Label objects becomes index-keyed functional updates, filesystem and
rasterizer side effects become an explicit trace of Effect values, and
assert statements become an error field on the run result.  External
collaborators (the rasterizer, the box deriver, the config loader, the
schema translator) are parameters; collaborators whose code is outside
the sources (the sequence grouper, the config wrapper) are modelled from
the specification of their interface and marked as such.
-/

/-- Opaque stand-in for a scalabel Poly2D polygon; the core treats the
polygon geometry as an opaque blob. -/
structure Poly2D where
  data : Nat
deriving DecidableEq, Repr

/-- Opaque stand-in for an RLE mask blob (scalabel RLE has a counts
string and a size; the core never inspects it). -/
structure RLE where
  counts : String
deriving DecidableEq, Repr

/-- Canvas size (width, height) used by rasterization. -/
structure ImageSize where
  width : Nat
  height : Nat
deriving DecidableEq, Repr

/-- Bounding box derived from a mask. -/
structure Box2d where
  x1 : ℚ
  y1 : ℚ
  x2 : ℚ
  y2 : ℚ
deriving DecidableEq, Repr

/-- One annotated object within a Frame, after scalabel typing: an
optional polygon shape, an optional confidence score, and the mask and
box fields that rasterization fills in. -/
structure Label where
  id : String
  category : Option String
  score : Option ℚ
  poly2d : Option (List Poly2D)
  rle : Option RLE
  box2d : Option Box2d
deriving DecidableEq, Repr

/-- One unit of imagery with an optional sequence identifier and an
optional ordered list of Labels. -/
structure Frame where
  name : String
  videoName : Option String
  frameIndex : Option Nat
  labels : Option (List Label)
deriving DecidableEq, Repr

/-- Run-wide scalabel Config; only the canvas size matters to the core. -/
structure Config where
  imageSize : Option ImageSize
deriving DecidableEq, Repr

/-- Modelled from the spec: the BDD100K config wrapper (class in
bdd100k/common/typing.py, not under the given sources) wraps a scalabel
Config; main constructs it from an embedded dataset Config and reads the
wrapped Config back through the scalabel field. -/
structure BDD100KConfig where
  scalabel : Config
deriving DecidableEq, Repr

/-- Result of Load: frames plus an optional embedded Config. -/
structure Dataset where
  frames : List Frame
  config : Option Config
deriving DecidableEq, Repr

/-- The five conversion modes accepted by main (lane_mark is rejected by
the assertion at the top of main and never dispatched). -/
inductive Mode where
  | sem_seg
  | drivable
  | pan_seg
  | ins_seg
  | seg_track
deriving DecidableEq, Repr

/-- Observable side effects of a run, in order of occurrence: directory
creation, one rasterizer invocation per processed frame, and one file
write per conversion unit. -/
inductive Effect where
  | mkdir (path : String)
  | rasterCall (shape : ImageSize) (polys : List (List Poly2D))
  | save (path : String) (frames : List Frame)
deriving DecidableEq, Repr

/-- Outcome of a conversion entry point: the trace of effects that
happened before it returned or raised, and the assertion message if it
raised. -/
structure RunOut where
  effects : List Effect
  error : Option String
deriving DecidableEq, Repr

/-- External collaborators used inside frame processing: frame_to_rles
(the rasterizer, one mask per submitted polygon set) and rle_to_box2d
(the box deriver).  Both live in scalabel, outside this repository. -/
structure RasterEnv where
  raster : ImageSize → List (List Poly2D) → List RLE
  toBox : RLE → Box2d

/-- Pairs every label with its position in the original list, standing
in for Python object identity of the aliased Label objects. -/
def indexFrom (i : Nat) : List Label → List (Nat × Label)
  | [] => []
  | l :: ls => (i, l) :: indexFrom (i + 1) ls

/-- Rendering order chosen by frames_to_rle: when every label carries a
score the labels are stably sorted ascending by score, otherwise the
original order is kept (labels stay tagged with their original index). -/
def orderLabels (labels : List Label) : List (Nat × Label) :=
  let indexed := indexFrom 0 labels
  if labels.all (fun l => l.score.isSome) then
    indexed.mergeSort (fun a b => decide (a.2.score.getD 0 ≤ b.2.score.getD 0))
  else indexed

/-- The polygon sets submitted to the rasterizer: in rendering order,
every label that has a polygon shape contributes it, shapeless labels
are skipped. -/
def submittedPolys (labels : List Label) : List (List Poly2D) :=
  (orderLabels labels).filterMap (fun p => p.2.poly2d)

/-- The shape-bearing labels in rendering order (the labels whose
polygon sets make up submittedPolys). -/
def submittedLabels (labels : List Label) : List Label :=
  ((orderLabels labels).map Prod.snd).filter (fun l => l.poly2d.isSome)

/-- Applies the in-place assignments of the zip loop: the label at
original position i receives rle and box2d iff some update targets i.
Each index occurs at most once among the updates, so the functional
update is exactly the sequential mutation. -/
def applyUpdates (env : RasterEnv) (ups : List (Nat × RLE)) :
    Nat → List Label → List Label
  | _, [] => []
  | i, l :: ls =>
    (match ups.find? (fun u => u.1 == i) with
      | some u => { l with rle := some u.2, box2d := some (env.toBox u.2) }
      | none => l) :: applyUpdates env ups (i + 1) ls

/-- One iteration of the frame loop in frames_to_rle: frames with no
labels are skipped untouched; otherwise the rendering order is chosen,
the polygon sets are submitted to the rasterizer once, and the returned
masks are zipped back against the (possibly sorted) label list, each
matched label getting its rle and the box derived from it. -/
def processFrame (env : RasterEnv) (shape : ImageSize) (frame : Frame) :
    Frame × List Effect :=
  match frame.labels with
  | none => (frame, [])
  | some labels =>
    if labels.isEmpty then (frame, [])
    else
      let ordered := orderLabels labels
      let polys := submittedPolys labels
      let rles := env.raster shape polys
      let ups := (ordered.zip rles).map (fun pr => (pr.1.1, pr.2))
      ({ frame with labels := some (applyUpdates env ups 0 labels) },
        [Effect.rasterCall shape polys])

/-- frames_to_rle: process every frame in order, then persist the whole
processed list to the output path as one unit. -/
def frames_to_rle (env : RasterEnv) (out_path : String) (shape : ImageSize)
    (frames : List Frame) : List Effect :=
  (frames.map (fun f => (processFrame env shape f).2)).flatten
    ++ [Effect.save out_path (frames.map (fun f => (processFrame env shape f).1))]

/-- seg_to_rles: single-unit conversion; asserts the canvas size is
present, then runs frames_to_rle on the whole frame list at the literal
output path.  The nproc argument is accepted and unused. -/
def seg_to_rles (env : RasterEnv) (frames : List Frame) (out_path : String)
    (config : Config) (nproc : Nat) : RunOut :=
  match config.imageSize with
  | none => ⟨[], some "Seg conversion requires imageSize in config"⟩
  | some shape => ⟨frames_to_rle env out_path shape frames, none⟩

/-- First-seen order of the distinct sequence identifiers occurring in
the frame list. -/
def groupKeys : List Frame → List (Option String)
  | [] => []
  | f :: fs => f.videoName :: (groupKeys fs).filter (fun k => k != f.videoName)

/-- Modelled from the spec: group_and_sort (scalabel.label.io, outside
this repository) groups a flat frame collection by sequence identifier,
preserving the relative order of frames within a group, and returns the
groups in a deterministic order. -/
def group_and_sort (frames : List Frame) : List (List Frame) :=
  (groupKeys frames).map (fun k => frames.filter (fun f => f.videoName == k))

/-- The per-group assertion loop of segtrack_to_rles: walks the groups
in order, requires the first frame of each group to carry a sequence
identifier, and collects one output path per group, the identifier as
file stem under the output base directory. -/
def collectPaths (out_base : String) : List (List Frame) → Except String (List String)
  | [] => Except.ok []
  | [] :: _ => Except.error "list index out of range"
  | (f :: _) :: gs =>
    match f.videoName with
    | none => Except.error "SegTrack conversion requires videoName in annotations"
    | some name =>
      match collectPaths out_base gs with
      | Except.error e => Except.error e
      | Except.ok ps => Except.ok ((out_base ++ "/" ++ name ++ ".json") :: ps)

/-- segtrack_to_rles: group the frames, create the output directory,
assert the canvas size, collect one output path per group (asserting the
sequence identifier of each group head), and only then dispatch
frames_to_rle once per group.  The worker pool only schedules the
independent units, so the trace is their traces in group order. -/
def segtrack_to_rles (env : RasterEnv) (frames : List Frame) (out_base : String)
    (config : Config) (nproc : Nat) : RunOut :=
  let frames_list := group_and_sort frames
  let eff0 := [Effect.mkdir out_base]
  match config.imageSize with
  | none => ⟨eff0, some "Conversion requires imageSize in config."⟩
  | some shape =>
    match collectPaths out_base frames_list with
    | Except.error e => ⟨eff0, some e⟩
    | Except.ok out_paths =>
      ⟨eff0 ++ ((out_paths.zip frames_list).map
          (fun p => frames_to_rle env p.1 shape p.2)).flatten, none⟩

/-- The mode string used to pick the default config in main. -/
def modeName : Mode → String
  | Mode.sem_seg => "sem_seg"
  | Mode.drivable => "drivable"
  | Mode.pan_seg => "pan_seg"
  | Mode.ins_seg => "ins_seg"
  | Mode.seg_track => "seg_track"

/-- Config resolution in main: an explicit config argument wins, else a
Config embedded in the loaded dataset is wrapped, else the mode-named
default is loaded.  loadCfg abstracts load_bdd100k_config
(bdd100k/common/utils.py, outside the given sources). -/
def resolveConfig (loadCfg : String → BDD100KConfig) (cfgArg : Option String)
    (dataset : Dataset) (mode : Mode) : BDD100KConfig :=
  match cfgArg with
  | some path => loadCfg path
  | none =>
    match dataset.config with
    | some c => ⟨c⟩
    | none => loadCfg (modeName mode)

/-- Schema translation step of main: bdd100k_to_scalabel is applied
exactly for the ins_seg and seg_track modes. -/
def translatedFrames (translate : List Frame → List Frame) (mode : Mode)
    (frames : List Frame) : List Frame :=
  if mode = Mode.ins_seg ∨ mode = Mode.seg_track then translate frames else frames

/-- The convert_funcs dispatch table of main: seg_track goes to
segtrack_to_rles, every other supported mode to seg_to_rles. -/
def dispatchMode (env : RasterEnv) (mode : Mode) (frames : List Frame)
    (output : String) (config : Config) (nproc : Nat) : RunOut :=
  match mode with
  | Mode.seg_track => segtrack_to_rles env frames output config nproc
  | _ => seg_to_rles env frames output config nproc

/-- main after argument parsing and loading: resolve the config,
optionally translate the schema, and dispatch on the mode. -/
def mainPipeline (env : RasterEnv) (translate : List Frame → List Frame)
    (loadCfg : String → BDD100KConfig) (dataset : Dataset)
    (cfgArg : Option String) (mode : Mode) (output : String) (nproc : Nat) :
    RunOut :=
  let bddConfig := resolveConfig loadCfg cfgArg dataset mode
  let frames := translatedFrames translate mode dataset.frames
  dispatchMode env mode frames output bddConfig.scalabel nproc

/-- The output path of a save effect, if it is one. -/
def Effect.savePath : Effect → Option String
  | Effect.save p _ => some p
  | _ => none

/-- The persisted frame list of a save effect, if it is one. -/
def Effect.savedList : Effect → Option (List Frame)
  | Effect.save _ fs => some fs
  | _ => none

/-- Whether an effect is a directory creation. -/
def Effect.isMkdir : Effect → Bool
  | Effect.mkdir _ => true
  | _ => false

/-- The output files written during a run, in order. -/
def savedPaths (out : RunOut) : List String :=
  out.effects.filterMap Effect.savePath

/-- The frame lists persisted during a run, in order. -/
def savedFrames (out : RunOut) : List (List Frame) :=
  out.effects.filterMap Effect.savedList

/-- Concrete collaborator instance used to evaluate the embedding on
specific inputs: one mask per submitted polygon set, a fixed box. -/
def testEnv : RasterEnv where
  raster := fun _ polys => polys.map (fun _ => ⟨"m"⟩)
  toBox := fun _ => ⟨0, 0, 0, 0⟩

/-- A label carrying no polygon shape. -/
def labelNoShape : Label := ⟨"a", none, none, none, none, none⟩

/-- A label carrying a polygon shape. -/
def labelShape : Label := ⟨"b", none, none, some [⟨1⟩], none, none⟩

/-- A frame whose first label is shapeless and whose second label has a
shape. -/
def frameMixed : Frame := ⟨"f", none, none, some [labelNoShape, labelShape]⟩

/-- Scenario label A: score 9/10, shape 1. -/
def labelA : Label := ⟨"A", none, some (9 / 10), some [⟨1⟩], none, none⟩

/-- Scenario label B: score 1/5, shape 2. -/
def labelB : Label := ⟨"B", none, some (1 / 5), some [⟨2⟩], none, none⟩

/-- Scenario label C: shape but no score. -/
def labelC : Label := ⟨"C", none, none, some [⟨3⟩], none, none⟩

/-- Three frames with sequence identifiers v1, v2, v1 and no labels. -/
def framesVid : List Frame :=
  [⟨"f1", some "v1", some 0, none⟩, ⟨"f2", some "v2", some 0, none⟩,
   ⟨"f3", some "v1", some 1, none⟩]

/-- A config carrying a canvas size. -/
def cfg22 : Config := ⟨some ⟨2, 2⟩⟩

/-- A config loader stub for witnesses. -/
def loadCfgTest : String → BDD100KConfig :=
  fun s => ⟨⟨if s = "sem_seg" then some ⟨7, 8⟩ else none⟩⟩

/-- A frame whose sequence identifier is present but is the empty
string. -/
def frameEmptyName : Frame := ⟨"f", some "", some 0, none⟩

/-- A frame with no sequence identifier at all. -/
def frameNoName : Frame := ⟨"g", none, none, none⟩

/-- A frame whose labels all carry scores and shapes, in the order
A (score 9/10) then B (score 1/5). -/
def frameScored : Frame := ⟨"fs", none, none, some [labelA, labelB]⟩

theorem indexFrom_map_snd (i : Nat) (ls : List Label) :
    (indexFrom i ls).map Prod.snd = ls := by
  induction ls generalizing i with
  | nil => rfl
  | cons l ls ih => simp [indexFrom, ih]

theorem filterMap_filter_isSome {α β : Type} (f : α → Option β) (l : List α) :
    (l.filter (fun a => (f a).isSome)).filterMap f = l.filterMap f := by
  induction l with
  | nil => rfl
  | cons a l ih =>
    by_cases h : (f a).isSome
    · obtain ⟨b, hb⟩ := Option.isSome_iff_exists.mp h
      simp [List.filter_cons, List.filterMap_cons, h, hb, ih]
    · have hnone : f a = none := Option.not_isSome_iff_eq_none.mp h
      simp [List.filter_cons, List.filterMap_cons, h, hnone, ih]

theorem processFrame_savePath (env : RasterEnv) (shape : ImageSize) (f : Frame) :
    ((processFrame env shape f).2).filterMap Effect.savePath = [] := by
  unfold processFrame
  cases f.labels with
  | none => rfl
  | some ls =>
    by_cases h : ls.isEmpty <;> simp [h, Effect.savePath]

theorem processFrame_savedList (env : RasterEnv) (shape : ImageSize) (f : Frame) :
    ((processFrame env shape f).2).filterMap Effect.savedList = [] := by
  unfold processFrame
  cases f.labels with
  | none => rfl
  | some ls =>
    by_cases h : ls.isEmpty <;> simp [h, Effect.savedList]

theorem frames_to_rle_savedPaths (env : RasterEnv) (p : String)
    (shape : ImageSize) (fs : List Frame) :
    (frames_to_rle env p shape fs).filterMap Effect.savePath = [p] := by
  unfold frames_to_rle
  rw [List.filterMap_append, List.filterMap_flatten]
  simp [List.filterMap_cons, Effect.savePath, processFrame_savePath]

theorem frames_to_rle_savedFrames (env : RasterEnv) (p : String)
    (shape : ImageSize) (fs : List Frame) :
    (frames_to_rle env p shape fs).filterMap Effect.savedList
      = [fs.map (fun f => (processFrame env shape f).1)] := by
  unfold frames_to_rle
  rw [List.filterMap_append, List.filterMap_flatten]
  simp [List.filterMap_cons, Effect.savedList, processFrame_savedList]

/-- C10: for single-unit conversion (seg_to_rles), the worker-count
argument has no effect: any two values give the identical run result on
the same frames, output path and config. -/
theorem C10_nproc_irrelevant (env : RasterEnv) (frames : List Frame)
    (out_path : String) (config : Config) (n1 n2 : Nat) :
    seg_to_rles env frames out_path config n1
      = seg_to_rles env frames out_path config n2 := rfl

/-- C8: a frame whose label list is absent or empty is left completely
unchanged by frame processing and triggers no rasterizer call. -/
theorem C8_empty_frame_noop (env : RasterEnv) (shape : ImageSize) (frame : Frame)
    (h : frame.labels = none ∨ frame.labels = some []) :
    processFrame env shape frame = (frame, []) := by
  rcases h with h | h <;> unfold processFrame <;> rw [h] <;> rfl

theorem C8_empty_frame_noop_witness :
    ((⟨"f", none, none, none⟩ : Frame).labels = none ∨
      (⟨"f", none, none, none⟩ : Frame).labels = some []) ∧
    processFrame testEnv ⟨2, 2⟩ ⟨"f", none, none, none⟩
      = (⟨"f", none, none, none⟩, []) :=
  ⟨Or.inl rfl, C8_empty_frame_noop testEnv ⟨2, 2⟩ ⟨"f", none, none, none⟩ (Or.inl rfl)⟩

/-- C6: config resolution precedence in main: an explicit config
argument is used; otherwise an embedded dataset config is wrapped;
otherwise the mode-derived default is loaded. -/
theorem C6_config_precedence (loadCfg : String → BDD100KConfig)
    (cfgArg : Option String) (dataset : Dataset) (mode : Mode) :
    (∀ path, cfgArg = some path →
      resolveConfig loadCfg cfgArg dataset mode = loadCfg path) ∧
    (cfgArg = none → ∀ c, dataset.config = some c →
      resolveConfig loadCfg cfgArg dataset mode = ⟨c⟩) ∧
    (cfgArg = none → dataset.config = none →
      resolveConfig loadCfg cfgArg dataset mode = loadCfg (modeName mode)) := by
  refine ⟨?_, ?_, ?_⟩
  · intro path hp; simp [resolveConfig, hp]
  · intro hn c hc; simp [resolveConfig, hn, hc]
  · intro hn hc; simp [resolveConfig, hn, hc]

theorem C6_config_precedence_witness :
    resolveConfig loadCfgTest (some "x") ⟨[], none⟩ Mode.sem_seg = loadCfgTest "x" ∧
    resolveConfig loadCfgTest none ⟨[], some cfg22⟩ Mode.sem_seg = ⟨cfg22⟩ ∧
    resolveConfig loadCfgTest none ⟨[], none⟩ Mode.sem_seg = loadCfgTest "sem_seg" :=
  ⟨(C6_config_precedence loadCfgTest (some "x") ⟨[], none⟩ Mode.sem_seg).1 "x" rfl,
   (C6_config_precedence loadCfgTest none ⟨[], some cfg22⟩ Mode.sem_seg).2.1 rfl cfg22 rfl,
   (C6_config_precedence loadCfgTest none ⟨[], none⟩ Mode.sem_seg).2.2 rfl rfl⟩

/-- C1: evaluating the embedded zip loop on a frame whose first label is
shapeless and whose second label carries the only polygon shows the
returned mask being assigned to the shapeless first label while the
shape-bearing second label stays empty: the zip runs over all labels
rather than over the shape-bearing ones. -/
theorem C1_zip_misassigns_mask :
    ((processFrame testEnv ⟨4, 3⟩ frameMixed).1.labels.getD []).map
        (fun l => (l.poly2d.isSome, l.rle.isSome))
      = [(false, true), (true, false)] := by decide

/-- C4: in every conversion mode, when the resolved config lacks the
canvas size the pipeline stops with a precondition error: at most the
output directory creation appears in the trace, so no rasterizer call is
made and zero output files are written. -/
theorem C4_missing_canvas_aborts (env : RasterEnv)
    (translate : List Frame → List Frame) (loadCfg : String → BDD100KConfig)
    (dataset : Dataset) (cfgArg : Option String) (mode : Mode)
    (output : String) (nproc : Nat)
    (h : (resolveConfig loadCfg cfgArg dataset mode).scalabel.imageSize = none) :
    (mainPipeline env translate loadCfg dataset cfgArg mode output nproc).error.isSome
        = true ∧
    (mainPipeline env translate loadCfg dataset cfgArg mode output
        nproc).effects.all Effect.isMkdir = true := by
  unfold mainPipeline dispatchMode
  cases mode <;>
    simp [seg_to_rles, segtrack_to_rles, h, Effect.isMkdir]

theorem C4_missing_canvas_aborts_witness :
    ((resolveConfig (fun _ => ⟨⟨none⟩⟩) (some "p") ⟨[], none⟩
        Mode.seg_track).scalabel.imageSize = none) ∧
    (mainPipeline testEnv id (fun _ => ⟨⟨none⟩⟩) ⟨[], none⟩ (some "p")
        Mode.seg_track "out" 4).error.isSome = true ∧
    (mainPipeline testEnv id (fun _ => ⟨⟨none⟩⟩) ⟨[], none⟩ (some "p")
        Mode.seg_track "out" 4).effects.all Effect.isMkdir = true :=
  ⟨rfl,
   (C4_missing_canvas_aborts testEnv id (fun _ => ⟨⟨none⟩⟩) ⟨[], none⟩ (some "p")
      Mode.seg_track "out" 4 rfl).1,
   (C4_missing_canvas_aborts testEnv id (fun _ => ⟨⟨none⟩⟩) ⟨[], none⟩ (some "p")
      Mode.seg_track "out" 4 rfl).2⟩

/-- C7: schema translation is applied exactly for the ins_seg and
seg_track modes; for sem_seg, drivable and pan_seg the frames pass
through untranslated into a single seg_to_rles unit, and (when the
canvas size is present) exactly one file is written at the literal
caller-given output path. -/
theorem C7_translation_iff_mode (env : RasterEnv)
    (translate : List Frame → List Frame) (loadCfg : String → BDD100KConfig)
    (dataset : Dataset) (cfgArg : Option String) (mode : Mode)
    (output : String) (nproc : Nat) :
    (mode = Mode.ins_seg ∨ mode = Mode.seg_track →
      translatedFrames translate mode dataset.frames = translate dataset.frames) ∧
    (mode = Mode.sem_seg ∨ mode = Mode.drivable ∨ mode = Mode.pan_seg →
      translatedFrames translate mode dataset.frames = dataset.frames ∧
      mainPipeline env translate loadCfg dataset cfgArg mode output nproc
        = seg_to_rles env dataset.frames output
            (resolveConfig loadCfg cfgArg dataset mode).scalabel nproc ∧
      (∀ shape,
        (resolveConfig loadCfg cfgArg dataset mode).scalabel.imageSize = some shape →
        savedPaths (mainPipeline env translate loadCfg dataset cfgArg mode output
          nproc) = [output])) := by
  constructor
  · intro h
    simp [translatedFrames, h]
  · intro h
    have htr : translatedFrames translate mode dataset.frames = dataset.frames := by
      rcases h with h | h | h <;> subst h <;> simp [translatedFrames]
    refine ⟨htr, ?_, ?_⟩
    · unfold mainPipeline dispatchMode
      rcases h with h | h | h <;> subst h <;> rw [htr]
    · intro shape hshape
      unfold mainPipeline dispatchMode
      rcases h with h | h | h <;> subst h <;>
        simp [htr, seg_to_rles, hshape, savedPaths, frames_to_rle_savedPaths]

theorem C7_translation_iff_mode_witness :
    (translatedFrames (fun _ => framesVid) Mode.ins_seg [] = framesVid) ∧
    (translatedFrames (fun _ => framesVid) Mode.sem_seg framesVid = framesVid) ∧
    savedPaths (mainPipeline testEnv (fun _ => framesVid) loadCfgTest
      ⟨framesVid, none⟩ none Mode.sem_seg "out.json" 4) = ["out.json"] :=
  ⟨(C7_translation_iff_mode testEnv (fun _ => framesVid) loadCfgTest ⟨[], none⟩
      none Mode.ins_seg "out.json" 4).1 (Or.inl rfl),
   ((C7_translation_iff_mode testEnv (fun _ => framesVid) loadCfgTest
      ⟨framesVid, none⟩ none Mode.sem_seg "out.json" 4).2 (Or.inl rfl)).1,
   ((C7_translation_iff_mode testEnv (fun _ => framesVid) loadCfgTest
      ⟨framesVid, none⟩ none Mode.sem_seg "out.json" 4).2 (Or.inl rfl)).2.2
      ⟨7, 8⟩ rfl⟩

theorem filterMap_indexFrom {β : Type} (f : Label → Option β) (i : Nat)
    (ls : List Label) :
    (indexFrom i ls).filterMap (fun p => f p.2) = ls.filterMap f := by
  have h := List.filterMap_map Prod.snd f (indexFrom i ls)
  rw [indexFrom_map_snd] at h
  exact h.symm

/-- C2: on a frame with a non-empty label list, if every label carries a
score then the shape-bearing labels reach the rasterizer in ascending
score order, while if any label lacks a score the submitted polygon sets
keep the original label order exactly; the submitted polygon sets are
always those of the shape-bearing labels in rendering order. -/
theorem C2_rendering_order (labels : List Label) (hne : labels ≠ []) :
    submittedPolys labels
        = (submittedLabels labels).filterMap (fun l => l.poly2d) ∧
    ((∀ l ∈ labels, l.score.isSome) →
      (submittedLabels labels).Pairwise
        (fun a b => a.score.getD 0 ≤ b.score.getD 0)) ∧
    ((¬ ∀ l ∈ labels, l.score.isSome) →
      submittedPolys labels = labels.filterMap (fun l => l.poly2d)) := by
  refine ⟨?_, ?_, ?_⟩
  · unfold submittedPolys submittedLabels
    rw [filterMap_filter_isSome, List.filterMap_map]
    rfl
  · intro hall
    have hb : labels.all (fun l => l.score.isSome) = true :=
      List.all_eq_true.mpr hall
    have horder : orderLabels labels
        = (indexFrom 0 labels).mergeSort
            (fun a b => decide (a.2.score.getD 0 ≤ b.2.score.getD 0)) := by
      simp [orderLabels, hb]
    have hsorted : ((indexFrom 0 labels).mergeSort
        (fun a b => decide (a.2.score.getD 0 ≤ b.2.score.getD 0))).Pairwise
          (fun a b => decide (a.2.score.getD 0 ≤ b.2.score.getD 0) = true) := by
      apply List.sorted_mergeSort
      · intro a b c hab hbc
        have h1 := of_decide_eq_true hab
        have h2 := of_decide_eq_true hbc
        exact decide_eq_true (le_trans h1 h2)
      · intro a b
        rcases le_total (a.2.score.getD 0) (b.2.score.getD 0) with h | h
        · simp [decide_eq_true h]
        · simp [decide_eq_true h]
    have hsorted2 : (orderLabels labels).Pairwise
        (fun a b => a.2.score.getD 0 ≤ b.2.score.getD 0) := by
      rw [horder]
      exact hsorted.imp (fun h => of_decide_eq_true h)
    have hmap : ((orderLabels labels).map Prod.snd).Pairwise
        (fun a b => a.score.getD 0 ≤ b.score.getD 0) :=
      List.pairwise_map.mpr hsorted2
    unfold submittedLabels
    exact hmap.sublist (List.filter_sublist _)
  · intro hnot
    have hb : labels.all (fun l => l.score.isSome) = false := by
      rw [← Bool.not_eq_true, List.all_eq_true]
      simpa using hnot
    unfold submittedPolys
    rw [show orderLabels labels = indexFrom 0 labels by simp [orderLabels, hb]]
    exact filterMap_indexFrom _ 0 labels

theorem C2_rendering_order_witness :
    ([labelA, labelB] ≠ ([] : List Label)) ∧
    ((∀ l ∈ [labelA, labelB], l.score.isSome) ∧
      (submittedLabels [labelA, labelB]).Pairwise
        (fun a b => a.score.getD 0 ≤ b.score.getD 0)) ∧
    ((¬ ∀ l ∈ [labelA, labelC], l.score.isSome) ∧
      submittedPolys [labelA, labelC]
        = [labelA, labelC].filterMap (fun l => l.poly2d)) :=
  ⟨List.cons_ne_nil _ _,
   ⟨by decide,
    (C2_rendering_order [labelA, labelB] (List.cons_ne_nil _ _)).2.1 (by decide)⟩,
   ⟨by decide,
    (C2_rendering_order [labelA, labelC] (List.cons_ne_nil _ _)).2.2 (by decide)⟩⟩

theorem mem_groupKeys_of_mem {frames : List Frame} {f : Frame} (hf : f ∈ frames) :
    f.videoName ∈ groupKeys frames := by
  induction frames with
  | nil => cases hf
  | cons g gs ih =>
    rcases List.mem_cons.mp hf with rfl | h
    · exact List.mem_cons_self _ _
    · by_cases hk : f.videoName = g.videoName
      · rw [hk]; exact List.mem_cons_self _ _
      · refine List.mem_cons_of_mem _ (List.mem_filter.mpr ⟨ih h, ?_⟩)
        simpa using hk

theorem exists_mem_of_mem_groupKeys {frames : List Frame} {k : Option String}
    (hk : k ∈ groupKeys frames) : ∃ f ∈ frames, f.videoName = k := by
  induction frames with
  | nil => cases hk
  | cons g gs ih =>
    rcases List.mem_cons.mp hk with rfl | h
    · exact ⟨g, List.mem_cons_self _ _, rfl⟩
    · obtain ⟨f, hf, hfk⟩ := ih (List.mem_filter.mp h).1
      exact ⟨f, List.mem_cons_of_mem _ hf, hfk⟩

theorem collectPaths_error_of_bad (out_base : String) :
    ∀ gs : List (List Frame),
    (∃ g ∈ gs, g = [] ∨ ∃ f l, g = f :: l ∧ f.videoName = none) →
    ∃ e, collectPaths out_base gs = Except.error e := by
  intro gs
  induction gs with
  | nil => rintro ⟨g, hg, _⟩; cases hg
  | cons g gs ih =>
    rintro ⟨g0, hg0, hbad⟩
    rcases List.mem_cons.mp hg0 with rfl | hmem
    · rcases hbad with rfl | ⟨f, l, rfl, hnone⟩
      · exact ⟨_, rfl⟩
      · exact ⟨"SegTrack conversion requires videoName in annotations",
          by simp [collectPaths, hnone]⟩
    · cases g with
      | nil => exact ⟨_, rfl⟩
      | cons f l =>
        cases hv : f.videoName with
        | none => exact ⟨"SegTrack conversion requires videoName in annotations",
            by simp [collectPaths, hv]⟩
        | some n =>
          obtain ⟨e, he⟩ := ih ⟨g0, hmem, hbad⟩
          exact ⟨e, by simp [collectPaths, hv, he]⟩

/-- C3 counterexample: a frame whose sequence identifier is the empty
string lacks a non-empty sequence identifier, yet the seg_track run does
not fail: it completes with no error and writes one output file (named
.json under the output directory). -/
theorem C3_empty_string_videoName_accepted :
    (segtrack_to_rles testEnv [frameEmptyName] "out" cfg22 1).error = none ∧
    savedPaths (segtrack_to_rles testEnv [frameEmptyName] "out" cfg22 1)
      = ["out/.json"] := by decide

/-- C3 amended: in seg_track mode, if any frame has no sequence
identifier at all (videoName is None), the run fails with a precondition
error before any conversion unit is dispatched: the only effect in the
trace is the creation of the output directory. -/
theorem C3_missing_videoName_fails (env : RasterEnv) (frames : List Frame)
    (out_base : String) (config : Config) (nproc : Nat)
    (h : ∃ f ∈ frames, f.videoName = none) :
    (segtrack_to_rles env frames out_base config nproc).error.isSome = true ∧
    (segtrack_to_rles env frames out_base config nproc).effects
      = [Effect.mkdir out_base] := by
  obtain ⟨f, hf, hnone⟩ := h
  cases hcfg : config.imageSize with
  | none => simp [segtrack_to_rles, hcfg]
  | some shape =>
    have hkey : (none : Option String) ∈ groupKeys frames := by
      have := mem_groupKeys_of_mem hf
      rwa [hnone] at this
    have hgrp : frames.filter (fun x => x.videoName == none) ∈ group_and_sort frames :=
      List.mem_map_of_mem _ hkey
    have hbad : frames.filter (fun x => x.videoName == none) = [] ∨
        ∃ f0 l, frames.filter (fun x => x.videoName == none) = f0 :: l ∧
          f0.videoName = none := by
      cases hg : frames.filter (fun x => x.videoName == none) with
      | nil => exact Or.inl rfl
      | cons f0 l =>
        refine Or.inr ⟨f0, l, rfl, ?_⟩
        have : f0 ∈ frames.filter (fun x => x.videoName == none) := by
          rw [hg]; exact List.mem_cons_self _ _
        simpa using (List.mem_filter.mp this).2
    obtain ⟨e, he⟩ := collectPaths_error_of_bad out_base (group_and_sort frames)
      ⟨_, hgrp, hbad⟩
    simp [segtrack_to_rles, hcfg, he]

theorem C3_missing_videoName_fails_witness :
    (∃ f ∈ [frameNoName], f.videoName = none) ∧
    (segtrack_to_rles testEnv [frameNoName] "out" cfg22 1).error.isSome = true ∧
    (segtrack_to_rles testEnv [frameNoName] "out" cfg22 1).effects
      = [Effect.mkdir "out"] :=
  ⟨⟨frameNoName, List.mem_singleton.mpr rfl, rfl⟩,
   (C3_missing_videoName_fails testEnv [frameNoName] "out" cfg22 1
      ⟨frameNoName, List.mem_singleton.mpr rfl, rfl⟩).1,
   (C3_missing_videoName_fails testEnv [frameNoName] "out" cfg22 1
      ⟨frameNoName, List.mem_singleton.mpr rfl, rfl⟩).2⟩

theorem collectPaths_ok (out_base : String) :
    ∀ gs : List (List Frame),
    (∀ g ∈ gs, ∃ f l n, g = f :: l ∧ f.videoName = some n) →
    collectPaths out_base gs
      = Except.ok (gs.map (fun g =>
          out_base ++ "/" ++ ((g.head?.bind Frame.videoName).getD "") ++ ".json")) := by
  intro gs
  induction gs with
  | nil => intro _; rfl
  | cons g gs ih =>
    intro hall
    obtain ⟨f, l, n, rfl, hv⟩ := hall g (List.mem_cons_self _ _)
    have htail := ih (fun g hg => hall g (List.mem_cons_of_mem _ hg))
    simp [collectPaths, hv, htail]

theorem units_filterMap_savePath (env : RasterEnv) (shape : ImageSize)
    (pathFn : List Frame → String) :
    ∀ gs : List (List Frame),
    ((gs.map (fun g => frames_to_rle env (pathFn g) shape g)).flatten).filterMap
        Effect.savePath = gs.map pathFn := by
  intro gs
  induction gs with
  | nil => rfl
  | cons g gs ih =>
    simp only [List.map_cons, List.flatten_cons, List.filterMap_append,
      frames_to_rle_savedPaths, ih]
    rfl

theorem units_filterMap_savedList (env : RasterEnv) (shape : ImageSize)
    (pathFn : List Frame → String) :
    ∀ gs : List (List Frame),
    ((gs.map (fun g => frames_to_rle env (pathFn g) shape g)).flatten).filterMap
        Effect.savedList
      = gs.map (fun g => g.map (fun fr => (processFrame env shape fr).1)) := by
  intro gs
  induction gs with
  | nil => rfl
  | cons g gs ih =>
    simp only [List.map_cons, List.flatten_cons, List.filterMap_append,
      frames_to_rle_savedFrames, ih]
    rfl

theorem zip_map_self {α β : Type} (f : α → β) (l : List α) :
    (l.map f).zip l = l.map (fun a => (f a, a)) := by
  have h := List.zip_map' f id l
  simpa using h

/-- C5: in seg_track mode with the canvas size present and every frame
carrying a sequence identifier, the run succeeds; the trace starts with
the creation of the output base directory, exactly one file is written
per sequence group, named by joining the base directory with the
identifier of the group head and the .json extension, the persisted
content of each file is its group processed frame by frame in order, and
every group is a sublist of the input (intra-group order preserved). -/
theorem C5_segtrack_layout (env : RasterEnv) (frames : List Frame)
    (out_base : String) (config : Config) (nproc : Nat) (shape : ImageSize)
    (hshape : config.imageSize = some shape)
    (hnames : ∀ f ∈ frames, f.videoName.isSome) :
    (segtrack_to_rles env frames out_base config nproc).error = none ∧
    (segtrack_to_rles env frames out_base config nproc).effects.head?
      = some (Effect.mkdir out_base) ∧
    savedPaths (segtrack_to_rles env frames out_base config nproc)
      = (group_and_sort frames).map (fun g =>
          out_base ++ "/" ++ ((g.head?.bind Frame.videoName).getD "") ++ ".json") ∧
    savedFrames (segtrack_to_rles env frames out_base config nproc)
      = (group_and_sort frames).map (fun g =>
          g.map (fun f => (processFrame env shape f).1)) ∧
    ∀ g ∈ group_and_sort frames, g.Sublist frames := by
  have hgood : ∀ g ∈ group_and_sort frames,
      ∃ f l n, g = f :: l ∧ f.videoName = some n := by
    intro g hg
    obtain ⟨k, hk, rfl⟩ := List.mem_map.mp hg
    obtain ⟨f0, hf0, hf0k⟩ := exists_mem_of_mem_groupKeys hk
    have hfmem : f0 ∈ frames.filter (fun x => x.videoName == k) :=
      List.mem_filter.mpr ⟨hf0, by simp [hf0k]⟩
    cases hg2 : frames.filter (fun x => x.videoName == k) with
    | nil => rw [hg2] at hfmem; cases hfmem
    | cons f1 l =>
      have hf1 : f1 ∈ frames.filter (fun x => x.videoName == k) := by
        rw [hg2]; exact List.mem_cons_self _ _
      have hk1 : f1.videoName = k := by
        simpa using (List.mem_filter.mp hf1).2
      have hs : f1.videoName.isSome := hnames f1 (List.mem_filter.mp hf1).1
      obtain ⟨n, hn⟩ := Option.isSome_iff_exists.mp hs
      exact ⟨f1, l, n, rfl, hn⟩
  have hok := collectPaths_ok out_base (group_and_sort frames) hgood
  have hzip : ((group_and_sort frames).map (fun g =>
        out_base ++ "/" ++ ((g.head?.bind Frame.videoName).getD "") ++ ".json")).zip
        (group_and_sort frames)
      = (group_and_sort frames).map (fun g =>
          (out_base ++ "/" ++ ((g.head?.bind Frame.videoName).getD "") ++ ".json", g)) :=
    zip_map_self _ _
  refine ⟨?_, ?_, ?_, ?_, ?_⟩
  · simp [segtrack_to_rles, hshape, hok]
  · simp [segtrack_to_rles, hshape, hok]
  · simp only [savedPaths, segtrack_to_rles, hshape, hok]
    simp only [hzip, List.map_map, List.singleton_append, List.filterMap_cons]
    simp only [Effect.savePath, Function.comp]
    exact units_filterMap_savePath env shape _ (group_and_sort frames)
  · simp only [savedFrames, segtrack_to_rles, hshape, hok]
    simp only [hzip, List.map_map, List.singleton_append, List.filterMap_cons]
    simp only [Effect.savedList, Function.comp]
    exact units_filterMap_savedList env shape _ (group_and_sort frames)
  · intro g hg
    obtain ⟨k, _, rfl⟩ := List.mem_map.mp hg
    exact List.filter_sublist _

theorem C5_segtrack_layout_witness :
    cfg22.imageSize = some ⟨2, 2⟩ ∧
    (∀ f ∈ framesVid, f.videoName.isSome) ∧
    (segtrack_to_rles testEnv framesVid "out" cfg22 4).error = none ∧
    savedPaths (segtrack_to_rles testEnv framesVid "out" cfg22 4)
      = (group_and_sort framesVid).map (fun g =>
          "out" ++ "/" ++ ((g.head?.bind Frame.videoName).getD "") ++ ".json") ∧
    savedFrames (segtrack_to_rles testEnv framesVid "out" cfg22 4)
      = (group_and_sort framesVid).map (fun g =>
          g.map (fun f => (processFrame testEnv ⟨2, 2⟩ f).1)) :=
  ⟨rfl, by decide,
   (C5_segtrack_layout testEnv framesVid "out" cfg22 4 ⟨2, 2⟩ rfl (by decide)).1,
   (C5_segtrack_layout testEnv framesVid "out" cfg22 4 ⟨2, 2⟩ rfl (by decide)).2.2.1,
   (C5_segtrack_layout testEnv framesVid "out" cfg22 4 ⟨2, 2⟩ rfl (by decide)).2.2.2.1⟩

theorem applyUpdates_length (env : RasterEnv) (ups : List (Nat × RLE)) :
    ∀ (i : Nat) (ls : List Label),
    (applyUpdates env ups i ls).length = ls.length := by
  intro i ls
  induction ls generalizing i with
  | nil => rfl
  | cons l ls ih => simp [applyUpdates, ih]

theorem applyUpdates_get_fields (env : RasterEnv) (ups : List (Nat × RLE)) :
    ∀ (ls : List Label) (i j : Nat) (hj : j < ls.length)
      (hj2 : j < (applyUpdates env ups i ls).length),
    ((applyUpdates env ups i ls).get ⟨j, hj2⟩).id = (ls.get ⟨j, hj⟩).id ∧
    ((applyUpdates env ups i ls).get ⟨j, hj2⟩).category = (ls.get ⟨j, hj⟩).category ∧
    ((applyUpdates env ups i ls).get ⟨j, hj2⟩).score = (ls.get ⟨j, hj⟩).score ∧
    ((applyUpdates env ups i ls).get ⟨j, hj2⟩).poly2d = (ls.get ⟨j, hj⟩).poly2d := by
  intro ls
  induction ls with
  | nil => intro i j hj _; exact absurd hj (Nat.not_lt_zero j)
  | cons l ls ih =>
    intro i j hj hj2
    cases j with
    | zero =>
      cases hfind : ups.find? (fun u => u.1 == i) with
      | none => simp [applyUpdates, hfind]
      | some u => simp [applyUpdates, hfind]
    | succ j =>
      have hlt : j < ls.length := Nat.lt_of_succ_lt_succ hj
      have hlt2 : j < (applyUpdates env ups (i + 1) ls).length := by
        rw [applyUpdates_length]; exact hlt
      have hstep := ih (i + 1) j hlt hlt2
      simpa [applyUpdates] using hstep

/-- C9: frame processing never reorders the labels list of a frame:
score sorting happens on a separate (index-tagged) list, the output
labels list has the same length and, position by position, the same
identity, category, score and polygon shape as the input (only rle and
box2d can change); all other frame fields are untouched; and what save
persists is exactly the per-frame processed list, frame order
preserved. -/
theorem C9_labels_order_preserved (env : RasterEnv) (shape : ImageSize)
    (frame : Frame) (labels : List Label) (h : frame.labels = some labels) :
    ∃ labels2 : List Label,
      (processFrame env shape frame).1.labels = some labels2 ∧
      (processFrame env shape frame).1.name = frame.name ∧
      (processFrame env shape frame).1.videoName = frame.videoName ∧
      (processFrame env shape frame).1.frameIndex = frame.frameIndex ∧
      labels2.length = labels.length ∧
      (∀ (j : Nat) (hj : j < labels.length) (hj2 : j < labels2.length),
        (labels2.get ⟨j, hj2⟩).id = (labels.get ⟨j, hj⟩).id ∧
        (labels2.get ⟨j, hj2⟩).category = (labels.get ⟨j, hj⟩).category ∧
        (labels2.get ⟨j, hj2⟩).score = (labels.get ⟨j, hj⟩).score ∧
        (labels2.get ⟨j, hj2⟩).poly2d = (labels.get ⟨j, hj⟩).poly2d) ∧
      (∀ (out_path : String) (fs : List Frame),
        (frames_to_rle env out_path shape fs).filterMap Effect.savedList
          = [fs.map (fun f => (processFrame env shape f).1)]) := by
  by_cases hemp : labels.isEmpty
  · have hnil : labels = [] := List.isEmpty_iff.mp hemp
    subst hnil
    have hpf : processFrame env shape frame = (frame, []) := by
      unfold processFrame
      rw [h]
      rfl
    refine ⟨[], ?_, ?_, ?_, ?_, rfl, ?_, ?_⟩
    · rw [hpf]; exact h
    · rw [hpf]
    · rw [hpf]
    · rw [hpf]
    · intro j hj _; exact absurd hj (Nat.not_lt_zero j)
    · intro out_path fs; exact frames_to_rle_savedFrames env out_path shape fs
  · have hemp2 : labels.isEmpty = false := by
      rwa [Bool.not_eq_true] at hemp
    have hpf : (processFrame env shape frame).1
        = { frame with labels := some (applyUpdates env
            (((orderLabels labels).zip
                (env.raster shape (submittedPolys labels))).map
              (fun pr => (pr.1.1, pr.2))) 0 labels) } := by
      unfold processFrame
      rw [h]
      simp [hemp2]
    refine ⟨_, by rw [hpf], by rw [hpf], by rw [hpf], by rw [hpf],
      applyUpdates_length env _ 0 labels, ?_, ?_⟩
    · intro j hj hj2
      exact applyUpdates_get_fields env _ labels 0 j hj hj2
    · intro out_path fs
      exact frames_to_rle_savedFrames env out_path shape fs

theorem C9_labels_order_preserved_witness :
    frameScored.labels = some [labelA, labelB] ∧
    ∃ labels2 : List Label,
      (processFrame testEnv ⟨2, 2⟩ frameScored).1.labels = some labels2 ∧
      (processFrame testEnv ⟨2, 2⟩ frameScored).1.name = frameScored.name ∧
      (processFrame testEnv ⟨2, 2⟩ frameScored).1.videoName = frameScored.videoName ∧
      (processFrame testEnv ⟨2, 2⟩ frameScored).1.frameIndex = frameScored.frameIndex ∧
      labels2.length = [labelA, labelB].length ∧
      (∀ (j : Nat) (hj : j < [labelA, labelB].length) (hj2 : j < labels2.length),
        (labels2.get ⟨j, hj2⟩).id = ([labelA, labelB].get ⟨j, hj⟩).id ∧
        (labels2.get ⟨j, hj2⟩).category = ([labelA, labelB].get ⟨j, hj⟩).category ∧
        (labels2.get ⟨j, hj2⟩).score = ([labelA, labelB].get ⟨j, hj⟩).score ∧
        (labels2.get ⟨j, hj2⟩).poly2d = ([labelA, labelB].get ⟨j, hj⟩).poly2d) ∧
      (∀ (out_path : String) (fs : List Frame),
        (frames_to_rle testEnv out_path ⟨2, 2⟩ fs).filterMap Effect.savedList
          = [fs.map (fun f => (processFrame testEnv ⟨2, 2⟩ f).1)]) :=
  ⟨rfl, C9_labels_order_preserved testEnv ⟨2, 2⟩ frameScored [labelA, labelB] rfl⟩
